import Mathlib

/-!
Verification development for `convert_mask_to_npy.py`, a single-file utility
that loads a PNG mask, binarizes it, extracts iso-contours at level 0.5,
packs the contour coordinates into a 4-field record together with a
timestamp and a label, and serializes the record (wrapped in a 1-element
object array) to disk.

The pure data flow of the script is embedded shallowly below:
pixel grids are lists of lists of rationals, contours are lists of
(row, column) rational pairs, and the driver's interaction with the
filesystem is represented by an explicit `World` record.  Third-party
routines that are not part of this repository (`skimage.measure.find_contours`
and the numpy `.npy` serializer) are modelled from the specification's
description of them; every other definition is a direct translation of the
script's own lines.
-/

namespace CellSeg

/-- A pixel grid: the numpy 2-D array `mask_array` obtained from the loaded
image, row by row.  Entries are rationals so that any numeric dtype and
value range (including negative values and sub-pixel interpolants) is
representable exactly. -/
abbrev Grid := List (List ℚ)

/-- A sub-pixel coordinate point, as a (row, column) pair — the coordinate
convention of `skimage.measure.find_contours`. -/
abbrev Point := ℚ × ℚ

/-- A directed line segment between two sub-pixel points. -/
abbrev Segment := Point × Point

/-- A contour: an ordered sequence of sub-pixel (row, column) points. -/
abbrev Contour := List Point

/-- Number of distinct pixel values in the grid: `len(np.unique(mask_array))`
from line 34 of the script (only the length of the unique-value list is
ever used, so order is irrelevant). -/
def npUniqueLen (g : Grid) : ℕ := g.flatten.dedup.length

/-- The thresholding applied on the `len(unique) == 2` branch (line 36):
`(mask_array > 0).astype(np.uint8)`. -/
def binaryBranchMask (g : Grid) : Grid :=
  g.map (List.map fun v => if 0 < v then (1 : ℚ) else 0)

/-- The thresholding applied on the `else` branch (line 40), textually
identical to the other branch: `(mask_array > 0).astype(np.uint8)`. -/
def nonBinaryBranchMask (g : Grid) : Grid :=
  g.map (List.map fun v => if 0 < v then (1 : ℚ) else 0)

/-- Lines 34–40 of the script: the unique-value conditional selecting
between the two (identical) thresholding branches. -/
def binarize (g : Grid) : Grid :=
  if npUniqueLen g = 2 then binaryBranchMask g else nonBinaryBranchMask g

/-- The single unconditional thresholding step in the words of the
specification (§4.2): `mask[i,j] = 1 if raw[i,j] > 0 else 0`.  Stated
separately from `binarize` so that the refinement claim can compare the
branching code with the branch-free specification. -/
def specThreshold (g : Grid) : Grid :=
  g.map (List.map fun v => if 0 < v then (1 : ℚ) else 0)

/-- Pixel lookup `g[r][c]`, `none` when out of range. -/
def getPix (g : Grid) (r c : ℕ) : Option ℚ :=
  g[r]?.bind fun row => row[c]?

/-- The iso-level 0.5 at which contours are extracted (line 45). -/
def levelHalf : ℚ := mkRat 1 2

/-- Modelled from the spec: the linear-interpolation fraction used by the
marching-squares routine of `skimage.measure.find_contours` (external
library code, absent from this repository) to place a crossing point on a
cell edge whose endpoint values are `a` and `b`. -/
def fracQ (a b : ℚ) : ℚ := if a = b then 0 else (levelHalf - a) / (b - a)

/-- Modelled from the spec: the marching-squares case number of a 2×2 cell,
one bit per corner strictly above the 0.5 level (corners: upper-left,
upper-right, lower-left, lower-right). -/
def squareCase (ul ur ll lr : ℚ) : ℕ :=
  (if levelHalf < ul then 1 else 0) + (if levelHalf < ur then 2 else 0) +
    (if levelHalf < ll then 4 else 0) + (if levelHalf < lr then 8 else 0)

/-- Modelled from the spec: the standard marching-squares segment table.
Cases 0 and 15 (all corners on the same side of the level) produce no
segment; every other case produces boundary segments between the edge
crossing points of the cell. -/
def caseSegments (sc : ℕ) (top bottom left right : Point) : List Segment :=
  match sc with
  | 1 => [(top, left)]
  | 2 => [(right, top)]
  | 3 => [(right, left)]
  | 4 => [(left, bottom)]
  | 5 => [(top, bottom)]
  | 6 => [(right, top), (left, bottom)]
  | 7 => [(right, bottom)]
  | 8 => [(bottom, right)]
  | 9 => [(top, left), (bottom, right)]
  | 10 => [(bottom, top)]
  | 11 => [(bottom, left)]
  | 12 => [(left, right)]
  | 13 => [(top, right)]
  | 14 => [(left, top)]
  | _ => []

/-- Modelled from the spec: the segments contributed by the marching-squares
cell whose upper-left pixel is `(r, c)`.  A cell contributes only when all
four of its corner pixels exist in the grid. -/
def cellSegments (g : Grid) (r c : ℕ) : List Segment :=
  match getPix g r c, getPix g r (c + 1), getPix g (r + 1) c,
      getPix g (r + 1) (c + 1) with
  | some ul, some ur, some ll, some lr =>
    caseSegments (squareCase ul ur ll lr)
      ((r : ℚ), (c : ℚ) + fracQ ul ur)
      ((r : ℚ) + 1, (c : ℚ) + fracQ ll lr)
      ((r : ℚ) + fracQ ul ll, (c : ℚ))
      ((r : ℚ) + fracQ ur lr, (c : ℚ) + 1)
  | _, _, _, _ => []

/-- Modelled from the spec: all boundary segments of the grid, gathered in
row-major scan order over the marching-squares cells. -/
def allSegments (g : Grid) : List Segment :=
  (List.range g.length).flatMap fun r =>
    (List.range (g[r]?.getD []).length).flatMap fun c =>
      cellSegments g r c

/-- Remove from the segment list the first segment starting at point `p`,
returning it together with the remaining segments. -/
def findSeg (p : Point) : List Segment → Option (Segment × List Segment)
  | [] => none
  | s :: rest =>
    if s.1 = p then some (s, rest)
    else
      match findSeg p rest with
      | none => none
      | some (t, rem) => some (t, s :: rem)

/-- Extend a polyline from endpoint `e` by repeatedly consuming a segment
that starts at the current endpoint; the fuel bounds the number of joins. -/
def growChain : ℕ → Point → List Segment → Contour × List Segment
  | 0, _, segs => ([], segs)
  | fuel + 1, e, segs =>
    match findSeg e segs with
    | none => ([], segs)
    | some (s, rest) =>
      let pr := growChain fuel s.2 rest
      (s.2 :: pr.1, pr.2)

/-- Modelled from the spec: assembly of the segment soup into polylines, the
ordering of which is implementation-defined (§4.3).  Each step starts a new
contour from the first unused segment and extends it as far as possible. -/
def assembleContours : ℕ → List Segment → List Contour
  | 0, _ => []
  | _ + 1, [] => []
  | fuel + 1, s :: rest =>
    let pr := growChain rest.length s.2 rest
    (s.1 :: s.2 :: pr.1) :: assembleContours fuel pr.2

/-- Modelled from the spec: `skimage.measure.find_contours(binary_mask, 0.5)`
(line 45), external library code absent from this repository — a
marching-squares-style boundary tracer producing a list of polylines of
sub-pixel (row, column) coordinates; an all-zero or all-one mask yields
zero contours (§4.3). -/
def find_contours (g : Grid) : List Contour :=
  assembleContours (allSegments g).length (allSegments g)

/-- Integer cast of a rational, truncating toward zero — the semantics of
numpy's `.astype(int)` applied to the floating-point contour coordinates
(lines 63–64). -/
def truncQ (q : ℚ) : ℤ := q.num.tdiv q.den

/-- Line 64: `x_coords = contour[:, 1].astype(int)` — the column
coordinates of a contour, cast to integer. -/
def contourX (c : Contour) : List ℤ := c.map fun p => truncQ p.2

/-- Line 63: `y_coords = contour[:, 0].astype(int)` — the row coordinates
of a contour, cast to integer. -/
def contourY (c : Contour) : List ℤ := c.map fun p => truncQ p.1

/-- The 4-field record built by the script (lines 53–58): timestamp string,
action-description string, list of x-coordinate sequences, list of
y-coordinate sequences.  (Named `AnnRecord` for the `annotation` list of
the script.) -/
structure AnnRecord where
  timestamp : String
  action : String
  xs : List (List ℤ)
  ys : List (List ℤ)
deriving DecidableEq

/-- The fixed action-description string of line 55. -/
def pngLabel : String := "converted from PNG"

/-- Lines 53–68: start from the empty record and, for each contour in
order, append its x-coordinate sequence to field 2 and its y-coordinate
sequence to field 3. -/
def buildAnnRecord (now : String) (contours : List Contour) : AnnRecord :=
  contours.foldl
    (fun a c => { a with xs := a.xs ++ [contourX c], ys := a.ys ++ [contourY c] })
    ⟨now, pngLabel, [], []⟩

/-- Line 71: `final_array = np.array([annotation], dtype=object)` — the
record wrapped in a 1-element object array. -/
def finalArray (now : String) (contours : List Contour) : List AnnRecord :=
  [buildAnnRecord now contours]

/-- Index of the last occurrence of character `c` in the list, as in
Python's `str.rfind` (`none` when absent). -/
def lastIdxOf (cs : List Char) (c : Char) : Option ℕ :=
  (List.range cs.length).foldl
    (fun acc i => if cs.get? i = some c then some i else acc) none

/-- `os.path.basename` for POSIX paths: everything after the last slash. -/
def basename (p : String) : String :=
  match lastIdxOf p.toList '/' with
  | none => p
  | some i => ⟨p.toList.drop (i + 1)⟩

/-- The root part of `os.path.splitext`: the string up to the last dot,
provided that dot comes after the last slash and at least one preceding
character of the final path component is not itself a dot (so purely
leading dots never count as an extension separator). -/
def splitextRoot (s : String) : String :=
  let cs := s.toList
  match lastIdxOf cs '.' with
  | none => s
  | some d =>
    let fi : ℕ :=
      match lastIdxOf cs '/' with
      | none => 0
      | some si => si + 1
    if ((cs.drop fi).take (d - fi)).any (fun ch => ch != '.') then ⟨cs.take d⟩
    else s

/-- Lines 75–78: the default output path
`<basename-without-extension>_seg.npy`, computed only when no explicit
output path is supplied. -/
def defaultOutputPath (png_path : String) : String :=
  splitextRoot (basename png_path) ++ "_seg.npy"

/-- The pure content of `convert_mask_to_npy` (lines 11–87) for an already
loaded image grid `img` and current timestamp string `now`: binarize,
extract contours, build the record and the 1-element wrapper array, and
resolve the output path.  The first component of the result is both the
path the file is written to (line 82) and the function's return value
(line 87); the second component is the array written there. -/
def convert_mask_to_npy (img : Grid) (now : String) (png_path : String)
    (output_path : Option String) : String × List AnnRecord :=
  let binary_mask := binarize img
  let contours := find_contours binary_mask
  let final_array := finalArray now contours
  let out :=
    match output_path with
    | some p => p
    | none => defaultOutputPath png_path
  (out, final_array)

/-- Modelled from the spec: the tokens of the on-disk encoding used by
`np.save` / `np.load` with `allow_pickle=True` (external numpy code, absent
from this repository) — §4.5 requires only "a binary format that preserves
arbitrary nested structure", so the encoding is modelled as a
self-describing token stream of strings, integers and length markers. -/
inductive NpyTok where
  | tS (v : String)
  | tI (v : ℤ)
  | tN (v : ℕ)
deriving DecidableEq

/-- Encode an integer sequence as its length followed by its elements. -/
def encInts (l : List ℤ) : List NpyTok :=
  NpyTok.tN l.length :: l.map NpyTok.tI

/-- Encode a list of integer sequences. -/
def encIntsList (l : List (List ℤ)) : List NpyTok :=
  NpyTok.tN l.length :: (l.map encInts).flatten

/-- Encode one 4-field record. -/
def encRec (a : AnnRecord) : List NpyTok :=
  NpyTok.tS a.timestamp :: NpyTok.tS a.action ::
    (encIntsList a.xs ++ encIntsList a.ys)

/-- Modelled from the spec: `np.save(output_path, final_array,
allow_pickle=True)` (line 82) — serialize the outer object array. -/
def np_save (arr : List AnnRecord) : List NpyTok :=
  NpyTok.tN arr.length :: (arr.map encRec).flatten

/-- Decode one length marker. -/
def decNat : List NpyTok → Option (ℕ × List NpyTok)
  | NpyTok.tN v :: rest => some (v, rest)
  | _ => none

/-- Decode one integer. -/
def decInt : List NpyTok → Option (ℤ × List NpyTok)
  | NpyTok.tI v :: rest => some (v, rest)
  | _ => none

/-- Decode one string. -/
def decStr : List NpyTok → Option (String × List NpyTok)
  | NpyTok.tS v :: rest => some (v, rest)
  | _ => none

/-- Decode exactly `n` integers. -/
def decIntsAux : ℕ → List NpyTok → Option (List ℤ × List NpyTok)
  | 0, ts => some ([], ts)
  | n + 1, ts => do
    let (i, ts1) ← decInt ts
    let (l, ts2) ← decIntsAux n ts1
    return (i :: l, ts2)

/-- Decode a length-prefixed integer sequence. -/
def decInts (ts : List NpyTok) : Option (List ℤ × List NpyTok) := do
  let (n, ts1) ← decNat ts
  decIntsAux n ts1

/-- Decode exactly `n` integer sequences. -/
def decIntsListAux : ℕ → List NpyTok → Option (List (List ℤ) × List NpyTok)
  | 0, ts => some ([], ts)
  | n + 1, ts => do
    let (l, ts1) ← decInts ts
    let (ls, ts2) ← decIntsListAux n ts1
    return (l :: ls, ts2)

/-- Decode a length-prefixed list of integer sequences. -/
def decIntsList (ts : List NpyTok) : Option (List (List ℤ) × List NpyTok) := do
  let (n, ts1) ← decNat ts
  decIntsListAux n ts1

/-- Decode one 4-field record. -/
def decRec (ts : List NpyTok) : Option (AnnRecord × List NpyTok) := do
  let (t, ts1) ← decStr ts
  let (ac, ts2) ← decStr ts1
  let (xs, ts3) ← decIntsList ts2
  let (ys, ts4) ← decIntsList ts3
  return (⟨t, ac, xs, ys⟩, ts4)

/-- Decode exactly `n` records. -/
def decRecsAux : ℕ → List NpyTok → Option (List AnnRecord × List NpyTok)
  | 0, ts => some ([], ts)
  | n + 1, ts => do
    let (a, ts1) ← decRec ts
    let (as1, ts2) ← decRecsAux n ts1
    return (a :: as1, ts2)

/-- Modelled from the spec: `np.load(output_file, allow_pickle=True)`
(line 117) — reload the outer object array from the token stream. -/
def np_load (ts : List NpyTok) : Option (List AnnRecord) := do
  let (n, ts1) ← decNat ts
  let (arr, _) ← decRecsAux n ts1
  return arr

/-- The driver's view of the world outside the process: which paths exist
(`os.path.exists`, line 107) and the result of loading and decoding an
image at a path (`Image.open` + the conversion body, lines 25–26 / 113),
where a raised exception is an `Except.error` carrying the printed message. -/
structure World where
  pathExists : String → Bool
  loadImage : String → Except String Grid

/-- The outcome of the driver's handling of one input path (lines 106–131):
skipped because missing, failed with a caught exception, or converted with
an output path and a written array. -/
inductive PathOutcome where
  | notFound
  | failed (err : String)
  | converted (outPath : String) (saved : List AnnRecord)
deriving DecidableEq

/-- One iteration of the driver loop (lines 101–131): check existence, then
run the conversion under the catch-all handler. -/
def processPath (w : World) (now : String) (p : String) : PathOutcome :=
  if w.pathExists p then
    match w.loadImage p with
    | Except.error e => PathOutcome.failed e
    | Except.ok img =>
      let r := convert_mask_to_npy img now p none
      PathOutcome.converted r.1 r.2
  else PathOutcome.notFound

/-- The console messages the driver prints for one path's outcome: the
file-not-found message of line 108, or the caught-error message of
line 128 followed by the `traceback.print_exc()` diagnostic trace of
line 130, or the success message of line 115. -/
def pathMessages (p : String) : PathOutcome → List String
  | PathOutcome.notFound => ["Error: File not found: " ++ p]
  | PathOutcome.failed e =>
    ["Error during conversion of " ++ p ++ ": " ++ e,
     "Traceback (most recent call last): " ++ e]
  | PathOutcome.converted o _ =>
    ["Successfully converted " ++ p ++ " to " ++ o]

/-- The hard-coded input path list of lines 94–99. -/
def png_paths : List String :=
  ["samples/ROI 1_1 mask.png", "samples/ROI 1_10.png",
   "samples/ROI 1_20.png", "samples/ROI 1_62.png"]

/-- The driver `main` (lines 89–136): process every path of the list in
order and exit with status 0 (the Python process exits 0 regardless of
per-file outcomes). -/
def runMain (w : World) (now : String) (paths : List String) :
    List PathOutcome × ℕ :=
  (paths.map (processPath w now), 0)

/-! ### Helper lemmas -/

/-- Both branches of the unique-value conditional are the single
thresholding step of the specification. -/
lemma binarize_eq_threshold (g : Grid) : binarize g = specThreshold g := by
  unfold binarize binaryBranchMask nonBinaryBranchMask specThreshold
  split <;> rfl

/-- The thresholding function is idempotent pointwise. -/
lemma specThreshold_idem (g : Grid) :
    specThreshold (specThreshold g) = specThreshold g := by
  unfold specThreshold
  rw [List.map_map]
  apply List.map_congr_left
  intro row _
  rw [Function.comp, List.map_map]
  apply List.map_congr_left
  intro v _
  by_cases h : (0 : ℚ) < v
  · simp [h]
  · simp [h]

/-- Closed form of the record-building fold. -/
lemma buildRecord_foldl (cs : List Contour) (a : AnnRecord) :
    cs.foldl
      (fun a c => { a with xs := a.xs ++ [contourX c], ys := a.ys ++ [contourY c] })
      a =
      ⟨a.timestamp, a.action, a.xs ++ cs.map contourX, a.ys ++ cs.map contourY⟩ := by
  induction cs generalizing a with
  | nil => simp
  | cons c cs ih => simp [ih]

/-- Closed form of `buildAnnRecord`. -/
lemma buildAnnRecord_eq (now : String) (cs : List Contour) :
    buildAnnRecord now cs = ⟨now, pngLabel, cs.map contourX, cs.map contourY⟩ := by
  unfold buildAnnRecord
  rw [buildRecord_foldl]
  simp

/-! ### Claims C8, C9, C10, C6 -/

/-- Claim C8: binarization is idempotent — applying the thresholding
transform twice yields the same 0/1 mask as applying it once. -/
theorem claim8_binarize_idempotent (g : Grid) :
    binarize (binarize g) = binarize g := by
  rw [binarize_eq_threshold, binarize_eq_threshold, specThreshold_idem]

/-- Claim C9: the two branches of the unique-value conditional compute
identical results on every grid, so `binarize` is equivalent to the single
unconditional thresholding step described by the specification. -/
theorem claim9_branches_equivalent (g : Grid) :
    binaryBranchMask g = nonBinaryBranchMask g ∧ binarize g = specThreshold g :=
  ⟨rfl, binarize_eq_threshold g⟩

/-- Claim C10: with an explicitly supplied output path, the conversion
writes to exactly that path and returns it unchanged, and the computation
is independent of the input path (the default-name computation is
skipped). -/
theorem claim10_explicit_output_path (img : Grid) (now p p2 o : String) :
    (convert_mask_to_npy img now p (some o)).1 = o ∧
    convert_mask_to_npy img now p (some o) = convert_mask_to_npy img now p2 (some o) ∧
    (convert_mask_to_npy img now p (some o)).2 =
      finalArray now (find_contours (binarize img)) :=
  ⟨rfl, rfl, rfl⟩

/-- Claim C6: with no explicit output path, the conversion writes to
`<basename-without-extension>_seg.npy`; in particular `samples/x.png`
yields `x_seg.npy`; an explicit output path suppresses the default. -/
theorem claim6_default_output_path (img : Grid) (now p : String) :
    (convert_mask_to_npy img now p none).1 =
      splitextRoot (basename p) ++ "_seg.npy" ∧
    (convert_mask_to_npy img now "samples/x.png" none).1 = "x_seg.npy" ∧
    ∀ o, (convert_mask_to_npy img now p (some o)).1 = o := by
  refine ⟨rfl, ?_, fun o => rfl⟩
  show defaultOutputPath "samples/x.png" = "x_seg.npy"
  decide

/-! ### Claims C1, C2, C3 -/

/-- Claim C1: the record built for any contour list is the 4-field record
[timestamp, label, x-sequences, y-sequences] wrapped in a 1-element array,
with as many x-sequences as y-sequences as contours, and for every index
the x- and y-sequence come from the same contour and have equal length. -/
theorem claim1_record_structure (now : String) (cs : List Contour) :
    finalArray now cs = [buildAnnRecord now cs] ∧
    (finalArray now cs).length = 1 ∧
    (buildAnnRecord now cs).timestamp = now ∧
    (buildAnnRecord now cs).action = pngLabel ∧
    (buildAnnRecord now cs).xs.length = cs.length ∧
    (buildAnnRecord now cs).ys.length = cs.length ∧
    ∀ (i : ℕ) (c : Contour), cs[i]? = some c →
      (buildAnnRecord now cs).xs[i]? = some (contourX c) ∧
      (buildAnnRecord now cs).ys[i]? = some (contourY c) ∧
      (contourX c).length = (contourY c).length := by
  have hb := buildAnnRecord_eq now cs
  refine ⟨rfl, rfl, ?_, ?_, ?_, ?_, ?_⟩
  · rw [hb]
  · rw [hb]
  · rw [hb]; simp
  · rw [hb]; simp
  · intro i c h
    rw [hb]
    exact ⟨by simp [List.getElem?_map, h], by simp [List.getElem?_map, h],
      by simp [contourX, contourY]⟩

/-- A concrete two-point contour used by the witnesses. -/
def contourEx : Contour := [(mkRat 3 2, mkRat 5 2), (mkRat 1 2, mkRat 1 2)]

/-- Witness for C1 at a concrete one-contour list. -/
theorem claim1_record_structure_witness :
    ([contourEx] : List Contour)[0]? = some contourEx ∧
    ((buildAnnRecord "t" [contourEx]).xs[0]? = some (contourX contourEx) ∧
      (buildAnnRecord "t" [contourEx]).ys[0]? = some (contourY contourEx) ∧
      (contourX contourEx).length = (contourY contourEx).length) :=
  ⟨rfl, (claim1_record_structure "t" [contourEx]).2.2.2.2.2.2 0 contourEx rfl⟩

/-- Claim C2: the binarizer preserves the shape of the grid and maps every
entry to 1 when strictly positive and to 0 otherwise, so every entry of
the result lies in {0, 1}. -/
theorem claim2_binarize_values (g : Grid) :
    (binarize g).length = g.length ∧
    (∀ (i : ℕ) (row : List ℚ), g[i]? = some row →
      ∃ row2, (binarize g)[i]? = some row2 ∧ row2.length = row.length) ∧
    (∀ (i j : ℕ) (v : ℚ), getPix g i j = some v →
      getPix (binarize g) i j = some (if 0 < v then 1 else 0)) ∧
    (∀ x, x ∈ (binarize g).flatten → x = 0 ∨ x = 1) := by
  rw [binarize_eq_threshold]
  refine ⟨by simp [specThreshold], ?_, ?_, ?_⟩
  · intro i row h
    exact ⟨row.map fun v => if 0 < v then 1 else 0,
      by simp [specThreshold, List.getElem?_map, h], by simp⟩
  · intro i j v h
    unfold getPix at h ⊢
    cases hr : g[i]? with
    | none => rw [hr] at h; simp at h
    | some row =>
      rw [hr] at h
      simp only [Option.some_bind] at h
      simp [specThreshold, List.getElem?_map, hr, h]
  · intro x hx
    rcases List.mem_flatten.mp hx with ⟨l, hl, hxl⟩
    rcases List.mem_map.mp hl with ⟨row, _, rfl⟩
    rcases List.mem_map.mp hxl with ⟨v, _, rfl⟩
    by_cases h : (0 : ℚ) < v
    · right; show (if 0 < v then (1 : ℚ) else 0) = 1; exact if_pos h
    · left; show (if 0 < v then (1 : ℚ) else 0) = 0; exact if_neg h

/-- Witness for C2 at a concrete grid with a negative entry. -/
theorem claim2_binarize_values_witness :
    getPix ([[5, 0], [-3, 2]] : Grid) 1 0 = some (-3) ∧
    getPix (binarize [[5, 0], [-3, 2]]) 1 0 =
      some (if (0 : ℚ) < -3 then 1 else 0) :=
  ⟨by decide,
   (claim2_binarize_values [[5, 0], [-3, 2]]).2.2.1 1 0 (-3) (by decide)⟩

/-- Claim C3: the packer stores, per contour and in contour order, the
column coordinates cast to integer (truncating toward zero) as the
x-sequence and the row coordinates cast to integer as the y-sequence;
`truncQ` truncates toward zero (floor on nonnegatives, ceiling on
negatives). -/
theorem claim3_packer_truncation (now : String) (cs : List Contour) :
    buildAnnRecord now cs =
      ⟨now, pngLabel, cs.map fun c => c.map fun p => truncQ p.2,
        cs.map fun c => c.map fun p => truncQ p.1⟩ ∧
    (∀ q : ℚ, 0 ≤ q → truncQ q = ⌊q⌋) ∧
    (∀ q : ℚ, q < 0 → truncQ q = ⌈q⌉) := by
  refine ⟨buildAnnRecord_eq now cs, ?_, ?_⟩
  · intro q hq
    rw [Rat.floor_def]
    exact Int.tdiv_eq_ediv (Rat.num_nonneg.mpr hq) (Int.natCast_nonneg _)
  · intro q hq
    have hnum : q.num < 0 := by
      by_contra hn
      exact absurd (Rat.num_nonneg.mp (not_lt.mp hn)) (not_le.mpr hq)
    have h1 : (⌈q⌉ : ℤ) = -⌊-q⌋ := by
      rw [Int.floor_neg, neg_neg]
    have h2 : ⌊-q⌋ = (-q.num) / (q.den : ℤ) := by
      rw [Rat.floor_def, Rat.neg_num, Rat.neg_den]
    have h3 : (-q.num).tdiv (q.den : ℤ) = (-q.num) / (q.den : ℤ) :=
      Int.tdiv_eq_ediv (by omega) (Int.natCast_nonneg _)
    have h4 : truncQ q = -((-q.num).tdiv (q.den : ℤ)) := by
      rw [Int.neg_tdiv, neg_neg]; rfl
    rw [h4, h3, h1, h2]

/-- Witness for C3: truncation of 7/2 and of -7/2. -/
theorem claim3_packer_truncation_witness :
    truncQ (mkRat 7 2) = ⌊mkRat 7 2⌋ ∧ truncQ (mkRat (-7) 2) = ⌈mkRat (-7) 2⌉ :=
  ⟨(claim3_packer_truncation "t" []).2.1 (mkRat 7 2) (by decide),
   (claim3_packer_truncation "t" []).2.2 (mkRat (-7) 2) (by decide)⟩

/-! ### Claim C7: constant masks have no contours -/

/-- A pixel returned by `getPix` is an entry of the flattened grid. -/
lemma getPix_mem (g : Grid) (r c : ℕ) (v : ℚ) (h : getPix g r c = some v) :
    v ∈ g.flatten := by
  unfold getPix at h
  cases hr : g[r]? with
  | none => rw [hr] at h; simp at h
  | some row =>
    rw [hr] at h
    simp only [Option.some_bind] at h
    exact List.mem_flatten.mpr
      ⟨row, List.getElem?_mem hr, List.getElem?_mem h⟩

/-- A marching-squares cell whose four corners share the constant value 0
or 1 contributes no segment. -/
lemma cellSegments_const (g : Grid) (v : ℚ) (hv : v = 0 ∨ v = 1)
    (h : ∀ x ∈ g.flatten, x = v) (r c : ℕ) : cellSegments g r c = [] := by
  unfold cellSegments
  cases h1 : getPix g r c with
  | none => rfl
  | some ul =>
  cases h2 : getPix g r (c + 1) with
  | none => rfl
  | some ur =>
  cases h3 : getPix g (r + 1) c with
  | none => rfl
  | some ll =>
  cases h4 : getPix g (r + 1) (c + 1) with
  | none => rfl
  | some lr =>
  have e1 := h ul (getPix_mem _ _ _ _ h1)
  have e2 := h ur (getPix_mem _ _ _ _ h2)
  have e3 := h ll (getPix_mem _ _ _ _ h3)
  have e4 := h lr (getPix_mem _ _ _ _ h4)
  subst e1 e2 e3 e4
  rcases hv with hv | hv <;> subst hv
  · show caseSegments (squareCase 0 0 0 0) _ _ _ _ = []
    rw [show squareCase 0 0 0 0 = 0 from by decide]
    rfl
  · show caseSegments (squareCase 1 1 1 1) _ _ _ _ = []
    rw [show squareCase 1 1 1 1 = 15 from by decide]
    rfl

/-- A flat-map over functions that all return the empty list is empty. -/
lemma flatMap_eq_nil_of {α β : Type} (l : List α) (f : α → List β)
    (h : ∀ a ∈ l, f a = []) : l.flatMap f = [] := by
  induction l with
  | nil => rfl
  | cons x xs ih =>
    rw [List.flatMap_cons, h x (List.mem_cons_self x xs),
      ih fun a ha => h a (List.mem_cons_of_mem x ha)]
    rfl

/-- A constant 0-valued or 1-valued grid yields no segments. -/
lemma allSegments_const (g : Grid) (v : ℚ) (hv : v = 0 ∨ v = 1)
    (h : ∀ x ∈ g.flatten, x = v) : allSegments g = [] := by
  unfold allSegments
  apply flatMap_eq_nil_of
  intro r _
  apply flatMap_eq_nil_of
  intro c _
  exact cellSegments_const g v hv h r c

/-- Assembling an empty segment soup yields no contours. -/
lemma assembleContours_nil (n : ℕ) : assembleContours n [] = [] := by
  cases n <;> rfl

/-- Contour extraction on a constant 0-valued or 1-valued mask is empty. -/
lemma find_contours_const (g : Grid) (v : ℚ) (hv : v = 0 ∨ v = 1)
    (h : ∀ x ∈ g.flatten, x = v) : find_contours g = [] := by
  unfold find_contours
  rw [allSegments_const g v hv h]
  exact assembleContours_nil _

/-- Thresholding an everywhere-positive grid gives the constant-1 mask. -/
lemma specThreshold_all_one (g : Grid) (h : ∀ x ∈ g.flatten, 0 < x) :
    ∀ x ∈ (specThreshold g).flatten, x = 1 := by
  intro x hx
  rcases List.mem_flatten.mp hx with ⟨l, hl, hxl⟩
  rcases List.mem_map.mp hl with ⟨row, hrow, rfl⟩
  rcases List.mem_map.mp hxl with ⟨v, hv, rfl⟩
  have hp : (0 : ℚ) < v := h v (List.mem_flatten.mpr ⟨row, hrow, hv⟩)
  show (if 0 < v then (1 : ℚ) else 0) = 1
  exact if_pos hp

/-- Claim C7: an entirely-zero or entirely-one mask has no contours at
level 0.5, and consequently an everywhere-positive image converts to a
record whose x-sequence and y-sequence lists are both empty. -/
theorem claim7_constant_mask_empty (m img : Grid) (now p : String)
    (hm : (∀ x ∈ m.flatten, x = 0) ∨ (∀ x ∈ m.flatten, x = 1))
    (himg : ∀ x ∈ img.flatten, 0 < x) :
    find_contours m = [] ∧
    buildAnnRecord now (find_contours (binarize img)) =
      ⟨now, pngLabel, [], []⟩ ∧
    (convert_mask_to_npy img now p none).2 =
      [(⟨now, pngLabel, [], []⟩ : AnnRecord)] := by
  have hfc : find_contours m = [] := by
    rcases hm with h | h
    · exact find_contours_const m 0 (Or.inl rfl) h
    · exact find_contours_const m 1 (Or.inr rfl) h
  have hb : find_contours (binarize img) = [] := by
    rw [binarize_eq_threshold]
    exact find_contours_const _ 1 (Or.inr rfl) (specThreshold_all_one img himg)
  refine ⟨hfc, by rw [hb]; rfl, ?_⟩
  show finalArray now (find_contours (binarize img)) = _
  rw [hb]; rfl

/-- Witness for C7 at a concrete all-zero mask and all-one image. -/
theorem claim7_constant_mask_empty_witness :
    find_contours ([[0, 0], [0, 0]] : Grid) = [] ∧
    buildAnnRecord "t" (find_contours (binarize [[1, 1], [1, 1]])) =
      ⟨"t", pngLabel, [], []⟩ ∧
    (convert_mask_to_npy [[1, 1], [1, 1]] "t" "a.png" none).2 =
      [(⟨"t", pngLabel, [], []⟩ : AnnRecord)] :=
  claim7_constant_mask_empty [[0, 0], [0, 0]] [[1, 1], [1, 1]] "t" "a.png"
    (Or.inl (by decide)) (by decide)

/-! ### Claim C4: serialization round-trip -/

/-- Decoding the encoding of an integer sequence consumes exactly it. -/
lemma decIntsAux_enc (l : List ℤ) (rest : List NpyTok) :
    decIntsAux l.length (l.map NpyTok.tI ++ rest) = some (l, rest) := by
  induction l with
  | nil => rfl
  | cons x xs ih => simp [decIntsAux, decInt, ih]

/-- Round-trip for one length-prefixed integer sequence. -/
lemma decInts_enc (l : List ℤ) (rest : List NpyTok) :
    decInts (encInts l ++ rest) = some (l, rest) := by
  simp [decInts, encInts, decNat, decIntsAux_enc]

/-- Round-trip for a fixed number of integer sequences. -/
lemma decIntsListAux_enc (l : List (List ℤ)) (rest : List NpyTok) :
    decIntsListAux l.length ((l.map encInts).flatten ++ rest) = some (l, rest) := by
  induction l with
  | nil => rfl
  | cons x xs ih =>
    simp [decIntsListAux, List.append_assoc, decInts_enc, ih]

/-- Round-trip for a length-prefixed list of integer sequences. -/
lemma decIntsList_enc (l : List (List ℤ)) (rest : List NpyTok) :
    decIntsList (encIntsList l ++ rest) = some (l, rest) := by
  simp [decIntsList, encIntsList, decNat, decIntsListAux_enc]

/-- Round-trip for one record. -/
lemma decRec_enc (a : AnnRecord) (rest : List NpyTok) :
    decRec (encRec a ++ rest) = some (a, rest) := by
  simp [decRec, encRec, decStr, List.append_assoc, decIntsList_enc]

/-- Round-trip for a fixed number of records. -/
lemma decRecsAux_enc (l : List AnnRecord) (rest : List NpyTok) :
    decRecsAux l.length ((l.map encRec).flatten ++ rest) = some (l, rest) := by
  induction l with
  | nil => rfl
  | cons a as1 ih =>
    simp [decRecsAux, List.append_assoc, decRec_enc, ih]

/-- Round-trip for any serialized object array. -/
lemma np_load_save (arr : List AnnRecord) : np_load (np_save arr) = some arr := by
  have h := decRecsAux_enc arr []
  rw [List.append_nil] at h
  simp [np_load, np_save, decNat, h]

/-- Claim C4: serializing the 1-element array holding an annotation record
and reloading it yields exactly the original: the timestamp string, the
label string and all integer coordinate sequences are preserved. -/
theorem claim4_roundtrip (a : AnnRecord) : np_load (np_save [a]) = some [a] :=
  np_load_save [a]

/-! ### Claim C5: the driver isolates per-file failures -/

/-- Claim C5: the driver processes every path of its list — a missing path
produces the file-not-found message and a caught conversion error produces
the error message plus a diagnostic trace, and in both cases the outcome
list still has one entry per input path (position `i` depends only on path
`i`) while the exit status is 0 regardless. -/
theorem claim5_driver_isolation (w : World) (now : String) (paths : List String) :
    (runMain w now paths).2 = 0 ∧
    (runMain w now paths).1.length = paths.length ∧
    (∀ (i : ℕ) (q : String), paths[i]? = some q →
      (runMain w now paths).1[i]? = some (processPath w now q)) ∧
    (∀ q : String, w.pathExists q = false →
      processPath w now q = PathOutcome.notFound ∧
      ("Error: File not found: " ++ q) ∈
        pathMessages q (processPath w now q)) ∧
    (∀ (q e : String), w.pathExists q = true → w.loadImage q = Except.error e →
      processPath w now q = PathOutcome.failed e ∧
      ("Error during conversion of " ++ q ++ ": " ++ e) ∈
        pathMessages q (processPath w now q) ∧
      ("Traceback (most recent call last): " ++ e) ∈
        pathMessages q (processPath w now q)) := by
  refine ⟨rfl, by simp [runMain], ?_, ?_, ?_⟩
  · intro i q h
    simp [runMain, List.getElem?_map, h]
  · intro q h
    have hp : processPath w now q = PathOutcome.notFound := by
      simp [processPath, h]
    rw [hp]
    exact ⟨rfl, by simp [pathMessages]⟩
  · intro q e h he
    have hp : processPath w now q = PathOutcome.failed e := by
      simp [processPath, h, he]
    rw [hp]
    exact ⟨rfl, by simp [pathMessages], by simp [pathMessages]⟩

/-- A concrete world for the C5 witness: `missing.png` does not exist and
`bad.png` raises on load. -/
def wEx : World :=
  ⟨fun q => q != "missing.png",
   fun q => if q = "bad.png" then Except.error "boom" else Except.ok [[1]]⟩

/-- Witness for C5 at a concrete world and path list. -/
theorem claim5_driver_isolation_witness :
    (runMain wEx "t" ["missing.png", "bad.png"]).1[0]? =
      some (processPath wEx "t" "missing.png") ∧
    (processPath wEx "t" "missing.png" = PathOutcome.notFound ∧
      ("Error: File not found: " ++ "missing.png") ∈
        pathMessages "missing.png" (processPath wEx "t" "missing.png")) ∧
    (processPath wEx "t" "bad.png" = PathOutcome.failed "boom" ∧
      ("Error during conversion of " ++ "bad.png" ++ ": " ++ "boom") ∈
        pathMessages "bad.png" (processPath wEx "t" "bad.png") ∧
      ("Traceback (most recent call last): " ++ "boom") ∈
        pathMessages "bad.png" (processPath wEx "t" "bad.png")) :=
  ⟨(claim5_driver_isolation wEx "t" ["missing.png", "bad.png"]).2.2.1 0
      "missing.png" rfl,
   (claim5_driver_isolation wEx "t" ["missing.png", "bad.png"]).2.2.2.1
      "missing.png" rfl,
   (claim5_driver_isolation wEx "t" ["missing.png", "bad.png"]).2.2.2.2
      "bad.png" "boom" rfl rfl⟩

end CellSeg
